import Mathlib

/-!
Verification development for the CodecSim dual-process streaming transcode
pipeline (FFmpegPipeManager and GenericCodecProcessor).

The C++ sources are shallowly embedded:
  * machine `float` samples are modelled as rationals (the converter applies
    clamping, scaling by an integer, truncation, and division by an integer,
    all of which are exact at the sample values considered);
  * `int`, `int16_t`, `int32_t` values are modelled as `Int`, with the
    narrowing conversions made explicit (`wrap16`, `wrap32`);
  * `std::vector` / `std::queue` buffers are modelled as `List`;
  * WinAPI handles are modelled as `Bool` flags ("a valid open handle is
    currently held"), and the outcomes of WinAPI calls (pipe creation,
    process creation, bounded waits) are supplied by an explicit
    environment record, so each control-flow path of the C++ code is a
    concrete evaluation of the Lean function.
-/

namespace CodecSim

/-- Truncation of a rational towards zero: the semantics of the C cast from
a floating-point value to an integer type (for in-range values). -/
def ratTrunc (q : ℚ) : ℤ :=
  if 0 ≤ q then ⌊q⌋ else -⌊-q⌋

/-- Narrowing to `int16_t`: two's-complement wrap-around into
[-32768, 32767]. -/
def wrap16 (n : ℤ) : ℤ :=
  (n + 32768) % 65536 - 32768

/-- Narrowing to `int32_t`: two's-complement wrap-around into
[-2^31, 2^31 - 1]. -/
def wrap32 (n : ℤ) : ℤ :=
  (n + 2 ^ 31) % 2 ^ 32 - 2 ^ 31

theorem ratTrunc_nonneg (q : ℚ) (h : 0 ≤ q) : ratTrunc q = ⌊q⌋ := by
  simp [ratTrunc, h]

theorem wrap16_eq_self (n : ℤ) (h1 : -32768 ≤ n) (h2 : n ≤ 32767) :
    wrap16 n = n := by
  unfold wrap16
  omega

theorem wrap32_eq_self (n : ℤ) (h1 : -(2 ^ 31) ≤ n) (h2 : n ≤ 2 ^ 31 - 1) :
    wrap32 n = n := by
  unfold wrap32
  omega

/-- Model of `CodecInfo` (CodecRegistry.h): the catalog entry describing one codec
configuration. The `options` vector is omitted: no claim in scope mentions
it and `SetBitrate` never reads it. -/
structure CodecInfo where
  id : String
  displayName : String
  encoderName : String
  muxerFormat : String
  demuxerFormat : String
  defaultBitrate : ℤ
  minBitrate : ℤ
  maxBitrate : ℤ
  frameSize : ℤ
  latencySamples : ℤ
  additionalArgs : String
  isLossless : Bool
  available : Bool
deriving DecidableEq, Repr

/-- C++ `std::clamp(v, lo, hi)`: `lo` if `v < lo`, `hi` if `hi < v`,
otherwise `v`. -/
def stdClamp (v lo hi : ℤ) : ℤ :=
  if v < lo then lo else if hi < v then hi else v

theorem stdClamp_mem {v lo hi : ℤ} (h : lo ≤ hi) :
    lo ≤ stdClamp v lo hi ∧ stdClamp v lo hi ≤ hi := by
  unfold stdClamp
  split <;> [omega; (split <;> omega)]

/-- The MP3 entry of `CodecRegistry::RegisterBuiltinCodecs`
(CodecRegistry.cpp), used as a concrete catalog input. -/
def mp3CodecInfo : CodecInfo :=
  { id := "mp3"
    displayName := "MP3"
    encoderName := "libmp3lame"
    muxerFormat := "mp3"
    demuxerFormat := "mp3"
    defaultBitrate := 128
    minBitrate := 8
    maxBitrate := 320
    frameSize := 1152
    latencySamples := 576
    additionalArgs := ""
    isLossless := false
    available := false }

end CodecSim

namespace GenericCodecProcessor

open CodecSim

/-- Model of `GenericCodecProcessor::SetBitrate` (the part that computes the stored
bitrate): clamps the requested kbps value to the catalog bounds with
`std::clamp` and stores `clamped * 1000` in `mBitrate`. The `int`
multiplication is narrowed with `wrap32`. Returns the new `mBitrate`. -/
def SetBitrate (info : CodecInfo) (bitrateKbps : ℤ) : ℤ :=
  let clamped := stdClamp bitrateKbps info.minBitrate info.maxBitrate
  wrap32 (clamped * 1000)

/-- C10: for every codec catalog entry with consistent bounds that fit in a
32-bit `int` after scaling, and every requested kbps value, `SetBitrate`
stores exactly 1000 times the requested value clamped to
[minBitrate, maxBitrate]; hence the stored bps value always lies within the
catalog-declared range scaled to bps. -/
theorem SetBitrate_stores_clamped_bitrate (info : CodecInfo) (bitrateKbps : ℤ)
    (hrange : info.minBitrate ≤ info.maxBitrate)
    (hlo : -(2 ^ 31) ≤ info.minBitrate * 1000)
    (hhi : info.maxBitrate * 1000 ≤ 2 ^ 31 - 1) :
    SetBitrate info bitrateKbps =
      1000 * stdClamp bitrateKbps info.minBitrate info.maxBitrate ∧
    info.minBitrate * 1000 ≤ SetBitrate info bitrateKbps ∧
    SetBitrate info bitrateKbps ≤ info.maxBitrate * 1000 := by
  obtain ⟨h1, h2⟩ := stdClamp_mem (v := bitrateKbps) hrange
  have hid : wrap32 (stdClamp bitrateKbps info.minBitrate info.maxBitrate * 1000) =
      stdClamp bitrateKbps info.minBitrate info.maxBitrate * 1000 :=
    wrap32_eq_self _ (by nlinarith) (by nlinarith)
  unfold SetBitrate
  refine ⟨by rw [hid]; ring, ?_, ?_⟩ <;> rw [hid] <;> nlinarith

/-- Witness for C10: requesting 9999 kbps on the MP3 catalog entry stores
320000 bps, the catalog maximum times 1000. -/
theorem SetBitrate_stores_clamped_bitrate_witness :
    SetBitrate mp3CodecInfo 9999 =
      1000 * stdClamp 9999 mp3CodecInfo.minBitrate mp3CodecInfo.maxBitrate ∧
    mp3CodecInfo.minBitrate * 1000 ≤ SetBitrate mp3CodecInfo 9999 ∧
    SetBitrate mp3CodecInfo 9999 ≤ mp3CodecInfo.maxBitrate * 1000 :=
  SetBitrate_stores_clamped_bitrate mp3CodecInfo 9999 (by decide) (by decide)
    (by decide)

end GenericCodecProcessor

namespace FFmpegPipeManager

open CodecSim

/-- Model of `FFmpegPipeManager::Config` (FFmpegPipeManager.h). -/
structure Config where
  ffmpegPath : String
  codecName : String
  sampleRate : ℤ
  channels : ℕ
  bitrate : ℤ
  additionalArgs : String
  muxerFormat : String
  demuxerFormat : String
  bufferSize : ℕ
deriving DecidableEq, Repr

/-- The default-constructed `Config`. -/
def Config.default : Config :=
  { ffmpegPath := "ffmpeg.exe"
    codecName := "libmp3lame"
    sampleRate := 48000
    channels := 2
    bitrate := 128000
    additionalArgs := ""
    muxerFormat := ""
    demuxerFormat := ""
    bufferSize := 65536 }

/-!
### Sample format converter (`FloatToS16LE` / `S16LEToFloat`)

`FFmpegPipeManager::FloatToS16LE` clamps each sample to [-1, 1] with
`std::max(-1.0f, std::min(1.0f, sample))`, multiplies by `32767.0f`, casts
to `int32_t` (truncation towards zero) and then narrows to `int16_t`.
`FFmpegPipeManager::S16LEToFloat` divides each `int16_t` sample
by `32768.0f`.
-/

/-- One loop iteration of `FFmpegPipeManager::FloatToS16LE`. -/
def floatToS16LEStep (sample : ℚ) : ℤ :=
  let clamped := max (-1 : ℚ) (min (1 : ℚ) sample)
  let intSample : ℤ := wrap32 (ratTrunc (clamped * 32767))
  wrap16 intSample

/-- Model of `FFmpegPipeManager::FloatToS16LE`: elementwise conversion of a buffer of
float samples to S16LE samples. -/
def FloatToS16LE : List ℚ → List ℤ
  | [] => []
  | sample :: rest => floatToS16LEStep sample :: FloatToS16LE rest

/-- Model of `FFmpegPipeManager::S16LEToFloat`: elementwise conversion of a buffer of
S16LE samples to float samples. -/
def S16LEToFloat : List ℤ → List ℚ
  | [] => []
  | sample :: rest => ((sample : ℚ) / 32768) :: S16LEToFloat rest

theorem S16LEToFloat_eq_map (ns : List ℤ) :
    S16LEToFloat ns = ns.map (fun n => (n : ℚ) / 32768) := by
  induction ns with
  | nil => rfl
  | cons n rest ih => simp [S16LEToFloat, ih]

theorem S16LEToFloat_length (ns : List ℤ) :
    (S16LEToFloat ns).length = ns.length := by
  induction ns with
  | nil => rfl
  | cons n rest ih => simp [S16LEToFloat, ih]

/-- The clamped sample is within [-1, 1]. -/
theorem clamp_mem_Icc (sample : ℚ) :
    -1 ≤ max (-1 : ℚ) (min 1 sample) ∧ max (-1 : ℚ) (min 1 sample) ≤ 1 := by
  constructor
  · exact le_max_left _ _
  · exact max_le (by norm_num) (min_le_left _ _)

theorem ratTrunc_le_of_le {q : ℚ} {b : ℤ} (hb : 0 ≤ b) (h : q ≤ b) :
    ratTrunc q ≤ b := by
  unfold ratTrunc
  by_cases h0 : 0 ≤ q
  · simp only [h0, if_true]
    have hq : (⌊q⌋ : ℚ) ≤ (b : ℚ) := le_trans (Int.floor_le q) h
    exact_mod_cast hq
  · simp only [h0, if_false]
    have : (0 : ℤ) ≤ ⌊-q⌋ := by
      apply Int.le_floor.mpr
      push_cast
      linarith [not_le.mp h0]
    omega

theorem neg_le_ratTrunc_of_le {q : ℚ} {b : ℤ} (hb : 0 ≤ b) (h : -(b : ℚ) ≤ q) :
    -b ≤ ratTrunc q := by
  unfold ratTrunc
  by_cases h0 : 0 ≤ q
  · simp only [h0, if_true]
    have : (0 : ℤ) ≤ ⌊q⌋ := Int.le_floor.mpr (by exact_mod_cast h0)
    omega
  · simp only [h0, if_false]
    have hq : (⌊-q⌋ : ℚ) ≤ (b : ℚ) := le_trans (Int.floor_le (-q)) (by linarith)
    have : ⌊-q⌋ ≤ b := by exact_mod_cast hq
    omega

/-- The scaled clamped sample truncates into the `int16_t` range, so both
narrowing casts are the identity on it. -/
theorem floatToS16LEStep_eq (sample : ℚ) :
    floatToS16LEStep sample = ratTrunc (max (-1 : ℚ) (min 1 sample) * 32767) := by
  obtain ⟨hlo, hhi⟩ := clamp_mem_Icc sample
  set c := max (-1 : ℚ) (min 1 sample) with hc
  have hmul_lo : -(32767 : ℚ) ≤ c * 32767 := by nlinarith
  have hmul_hi : c * 32767 ≤ 32767 := by nlinarith
  have htr_lo : (-32767 : ℤ) ≤ ratTrunc (c * 32767) :=
    neg_le_ratTrunc_of_le (by norm_num) (by push_cast; linarith)
  have htr_hi : ratTrunc (c * 32767) ≤ 32767 :=
    ratTrunc_le_of_le (by norm_num) (by push_cast; linarith)
  show wrap16 (wrap32 (ratTrunc (c * 32767))) = ratTrunc (c * 32767)
  rw [wrap32_eq_self _ (by omega) (by omega)]
  rw [wrap16_eq_self _ (by omega) (by omega)]

theorem FloatToS16LE_eq_map (xs : List ℚ) :
    FloatToS16LE xs =
      xs.map (fun x => ratTrunc (max (-1 : ℚ) (min 1 x) * 32767)) := by
  induction xs with
  | nil => rfl
  | cons x rest ih => simp [FloatToS16LE, floatToS16LEStep_eq, ih]

/-- C7: the sample format converter is pure and pointwise: float-to-fixed
clamps to [-1, 1], scales by the fixed-point range (32767) and truncates
towards zero (the two integer narrowing casts in the code are the identity
on the clamped, scaled value); fixed-to-float divides by the full-scale
magnitude 32768, with no other transformation. -/
theorem converter_is_pointwise_clamp_scale_truncate (xs : List ℚ) (ns : List ℤ) :
    FloatToS16LE xs =
      xs.map (fun x => ratTrunc (max (-1 : ℚ) (min 1 x) * 32767)) ∧
    S16LEToFloat ns = ns.map (fun n => (n : ℚ) / 32768) :=
  ⟨FloatToS16LE_eq_map xs, S16LEToFloat_eq_map ns⟩

/-- C8: converting each of the float samples 0.5, -1.0, 1.0 and 0.0 to
S16LE with FloatToS16LE and back to float with S16LEToFloat yields values
within one quantization step (1/32768) of the originals. -/
theorem roundtrip_within_one_quantization_step :
    S16LEToFloat (FloatToS16LE [(1 : ℚ)/2, -1, 1, 0]) =
      [16383/32768, -32767/32768, 32767/32768, 0] ∧
    |(16383 : ℚ)/32768 - 1/2| ≤ 1/32768 ∧
    |(-32767 : ℚ)/32768 - (-1)| ≤ 1/32768 ∧
    |(32767 : ℚ)/32768 - 1| ≤ 1/32768 ∧
    |(0 : ℚ) - 0| ≤ 1/32768 := by
  refine ⟨?_, by norm_num [abs_le], by norm_num [abs_le],
    by norm_num [abs_le], by norm_num⟩
  have h1 : max (-1 : ℚ) (min 1 (1/2)) = 1/2 := by norm_num
  have h2 : max (-1 : ℚ) (min 1 (-1)) = -1 := by norm_num
  have h3 : max (-1 : ℚ) (min 1 1) = 1 := by norm_num
  have h4 : max (-1 : ℚ) (min 1 0) = 0 := by norm_num
  have t1 : ratTrunc ((1 : ℚ)/2 * 32767) = 16383 := by
    rw [ratTrunc_nonneg _ (by norm_num)]
    norm_num
  have t2 : ratTrunc ((-1 : ℚ) * 32767) = -32767 := by
    unfold ratTrunc
    norm_num
  have t3 : ratTrunc ((1 : ℚ) * 32767) = 32767 := by
    rw [ratTrunc_nonneg _ (by norm_num)]
    norm_num
  have t4 : ratTrunc ((0 : ℚ) * 32767) = 0 := by
    rw [ratTrunc_nonneg _ (by norm_num)]
    norm_num
  simp only [FloatToS16LE, S16LEToFloat, floatToS16LEStep_eq, h1, h2, h3, h4,
    t1, t2, t3, t4]
  norm_num

/-!
### Command-line construction (`BuildEncoderCommand` / `BuildDecoderCommand`)
-/

/-- Whether `pat` occurs as a contiguous sublist of the second argument. -/
def containsSub (pat : List Char) : List Char → Bool
  | [] => pat.isEmpty
  | c :: rest => pat.isPrefixOf (c :: rest) || containsSub pat rest

/-- C++ `std::string::find(pat) != std::string::npos`: the pattern occurs
as a contiguous substring. -/
def strContains (s pat : String) : Bool :=
  containsSub pat.toList s.toList

/-- Model of `FFmpegPipeManager::GetIntermediateFormat`: maps a codec name to a
container format by substring tests, in source order. -/
def GetIntermediateFormat (codecName : String) : String :=
  if strContains codecName "mp3" || strContains codecName "lame" then "mp3"
  else if strContains codecName "aac" then "adts"
  else if strContains codecName "opus" then "ogg"
  else if strContains codecName "vorbis" then "ogg"
  else if strContains codecName "flac" then "flac"
  else "wav"

/-- The demuxer format chosen by `FFmpegPipeManager::BuildDecoderCommand`:
the configured `demuxerFormat`, or, when that is empty, the fallback derived
from the codec name with the adts-to-aac remap applied. -/
def decoderDemuxFormat (config : Config) : String :=
  if config.demuxerFormat = "" then
    let fallback := GetIntermediateFormat config.codecName
    if fallback = "adts" then "aac" else fallback
  else config.demuxerFormat

/-- The container format chosen by `FFmpegPipeManager::BuildEncoderCommand`:
the configured `muxerFormat`, or, when that is empty, the fallback derived
from the codec name. -/
def encoderMuxFormat (config : Config) : String :=
  if config.muxerFormat = "" then GetIntermediateFormat config.codecName
  else config.muxerFormat

/-- Model of `FFmpegPipeManager::BuildEncoderCommand`. -/
def BuildEncoderCommand (config : Config) : String :=
  "\"" ++ config.ffmpegPath ++ "\"" ++
    " -hide_banner -loglevel warning" ++
    " -f s16le" ++
    " -ar " ++ toString config.sampleRate ++
    " -ac " ++ toString config.channels ++
    " -i pipe:0" ++
    " -c:a " ++ config.codecName ++
    " -b:a " ++ toString config.bitrate ++
    (if config.additionalArgs = "" then "" else " " ++ config.additionalArgs) ++
    " -f " ++ encoderMuxFormat config ++
    " pipe:1"

/-- Model of `FFmpegPipeManager::BuildDecoderCommand`. -/
def BuildDecoderCommand (config : Config) : String :=
  "\"" ++ config.ffmpegPath ++ "\"" ++
    " -hide_banner -loglevel warning" ++
    " -f " ++ decoderDemuxFormat config ++
    " -i pipe:0" ++
    " -f s16le" ++
    " -ar " ++ toString config.sampleRate ++
    " -ac " ++ toString config.channels ++
    " pipe:1"

/-- Counterexample to C9 as stated: the codec name "aacmp3" contains "aac"
and the demuxer format is left empty, yet the decoder command is built with
demuxer format "mp3", not "aac", because `GetIntermediateFormat` tests for
"mp3" before "aac". -/
theorem aac_demux_inference_counterexample :
    strContains "aacmp3" "aac" = true ∧
    ({ Config.default with codecName := "aacmp3" } : Config).demuxerFormat = "" ∧
    decoderDemuxFormat { Config.default with codecName := "aacmp3" } = "mp3" ∧
    decoderDemuxFormat { Config.default with codecName := "aacmp3" } ≠ "aac" := by
  refine ⟨by decide, rfl, ?_, ?_⟩ <;> decide

/-- C9 (amended): for every configuration whose muxer and demuxer formats
are both left empty and whose codec name contains "aac" but contains
neither "mp3" nor "lame", the decoder command specifies the demuxer format
"aac" while the encoder command specifies the container format "adts"; and
for every configuration with an empty demuxer format, the raw container
name "adts" never appears as the decoder's input format. -/
theorem aac_family_demuxed_as_aac (config : Config)
    (hdemux : config.demuxerFormat = "")
    (hmux : config.muxerFormat = "")
    (haac : strContains config.codecName "aac" = true)
    (hmp3 : strContains config.codecName "mp3" = false)
    (hlame : strContains config.codecName "lame" = false) :
    decoderDemuxFormat config = "aac" ∧
    encoderMuxFormat config = "adts" ∧
    ∀ c : Config, c.demuxerFormat = "" → decoderDemuxFormat c ≠ "adts" := by
  have hfmt : GetIntermediateFormat config.codecName = "adts" := by
    simp [GetIntermediateFormat, haac, hmp3, hlame]
  refine ⟨?_, ?_, ?_⟩
  · simp [decoderDemuxFormat, hdemux, hfmt]
  · simp [encoderMuxFormat, hmux, hfmt]
  · intro c hc
    unfold decoderDemuxFormat
    simp only [hc, if_true]
    by_cases hf : GetIntermediateFormat c.codecName = "adts"
    · simp [hf]
    · simp [hf]

/-- Witness for C9 (amended) at the codec name "aac" with both format
fields empty. -/
theorem aac_family_demuxed_as_aac_witness :
    decoderDemuxFormat { Config.default with codecName := "aac" } = "aac" ∧
    encoderMuxFormat { Config.default with codecName := "aac" } = "adts" ∧
    ∀ c : Config, c.demuxerFormat = "" → decoderDemuxFormat c ≠ "adts" :=
  aac_family_demuxed_as_aac { Config.default with codecName := "aac" }
    rfl rfl (by decide) (by decide) (by decide)

/-!
### Manager state and lifecycle (`Start` / `Stop` / `WriteSamples` / `ReadSamples`)

The member variables of `FFmpegPipeManager` are modelled as a record.
Each WinAPI handle field is a `Bool`: `true` means the field currently
holds a valid open handle (C++: not `INVALID_HANDLE_VALUE` / not null).
`encoderProcAlive` / `decoderProcAlive` track whether the corresponding
child process is still executing. Thread fields are `true` when the
`std::thread` member is joinable.
-/

structure ManagerState where
  config : Config
  isRunning : Bool
  hInputRead : Bool
  hInputWrite : Bool
  hOutputRead : Bool
  hOutputWrite : Bool
  hErrorRead : Bool
  hErrorWrite : Bool
  intermediatePipeRead : Bool
  intermediatePipeWrite : Bool
  jobObject : Bool
  encoderProcHandle : Bool
  encoderProcAlive : Bool
  decoderProcHandle : Bool
  decoderProcAlive : Bool
  inputThread : Bool
  outputThread : Bool
  errorThread : Bool
  inputFloatBuffer : List ℚ
  outputFloatBuffer : List ℚ
  outputRawBuffer : List ℕ
deriving DecidableEq, Repr

/-- The state established by the `FFmpegPipeManager` constructor: not
running, every handle invalid, no processes, no threads, empty buffers. -/
def initialState : ManagerState :=
  { config := Config.default
    isRunning := false
    hInputRead := false
    hInputWrite := false
    hOutputRead := false
    hOutputWrite := false
    hErrorRead := false
    hErrorWrite := false
    intermediatePipeRead := false
    intermediatePipeWrite := false
    jobObject := false
    encoderProcHandle := false
    encoderProcAlive := false
    decoderProcHandle := false
    decoderProcAlive := false
    inputThread := false
    outputThread := false
    errorThread := false
    inputFloatBuffer := []
    outputFloatBuffer := []
    outputRawBuffer := [] }

/-- Outcomes of the WinAPI calls made during `Start`, supplied as an
explicit environment. -/
structure StartEnv where
  createInputPipeOk : Bool
  setInputInfoOk : Bool
  createOutputPipeOk : Bool
  setOutputInfoOk : Bool
  createErrorPipeOk : Bool
  setErrorInfoOk : Bool
  createIntermediatePipeOk : Bool
  createJobObjectOk : Bool
  launchEncoderOk : Bool
  launchDecoderOk : Bool
deriving DecidableEq, Repr

/-- Model of `FFmpegPipeManager::ClosePipes`: closes whichever of the six
caller-facing pipe handles are still open. -/
def ClosePipes (s : ManagerState) : ManagerState :=
  { s with hInputRead := false, hInputWrite := false,
           hOutputRead := false, hOutputWrite := false,
           hErrorRead := false, hErrorWrite := false }

/-- Model of `FFmpegPipeManager::CreatePipes`: creates the stdin, stdout and stderr
pipes in order; a failed `CreatePipe` before any pipe exists returns false
directly, any later failure (including `SetHandleInformation`) calls
`ClosePipes` first. -/
def CreatePipes (s : ManagerState) (env : StartEnv) : Bool × ManagerState :=
  if env.createInputPipeOk = false then (false, s)
  else
    let s1 := { s with hInputRead := true, hInputWrite := true }
    if env.setInputInfoOk = false then (false, ClosePipes s1)
    else if env.createOutputPipeOk = false then (false, ClosePipes s1)
    else
      let s2 := { s1 with hOutputRead := true, hOutputWrite := true }
      if env.setOutputInfoOk = false then (false, ClosePipes s2)
      else if env.createErrorPipeOk = false then (false, ClosePipes s2)
      else
        let s3 := { s2 with hErrorRead := true, hErrorWrite := true }
        if env.setErrorInfoOk = false then (false, ClosePipes s3)
        else (true, s3)

/-- Model of `FFmpegPipeManager::LaunchProcesses`: creates the intermediate pipe,
creates the job object (tolerating failure), launches the encoder, then
the decoder; if the decoder launch fails the encoder is terminated and its
handles closed before returning false; on success the child-owned pipe
ends (input read, output write, error write, both intermediate ends) are
closed. -/
def LaunchProcesses (s : ManagerState) (env : StartEnv) : Bool × ManagerState :=
  if env.createIntermediatePipeOk = false then (false, s)
  else
    let s1 := { s with intermediatePipeRead := true, intermediatePipeWrite := true }
    let s2 := if env.createJobObjectOk then { s1 with jobObject := true } else s1
    if env.launchEncoderOk = false then (false, s2)
    else
      let s3 := { s2 with encoderProcHandle := true, encoderProcAlive := true }
      if env.launchDecoderOk = false then
        (false, { s3 with encoderProcAlive := false, encoderProcHandle := false })
      else
        let s4 := { s3 with decoderProcHandle := true, decoderProcAlive := true }
        (true, { s4 with hInputRead := false, hOutputWrite := false,
                         hErrorWrite := false,
                         intermediatePipeWrite := false,
                         intermediatePipeRead := false })

/-- Model of `FFmpegPipeManager::Start`: rejects a running session, stores the
configuration, creates the pipes, launches the processes (closing the
pipes if that fails) and finally sets the running flag and starts the
error, output and input worker threads. -/
def Start (s : ManagerState) (config : Config) (env : StartEnv) :
    Bool × ManagerState :=
  if s.isRunning then (false, s)
  else
    let s0 := { s with config := config }
    match CreatePipes s0 env with
    | (false, s1) => (false, s1)
    | (true, s1) =>
      match LaunchProcesses s1 env with
      | (false, s2) => (false, ClosePipes s2)
      | (true, s2) =>
        (true, { s2 with isRunning := true, errorThread := true,
                         outputThread := true, inputThread := true })

/-- The environment in which every WinAPI call of `Start` succeeds. -/
def allOkStartEnv : StartEnv :=
  { createInputPipeOk := true
    setInputInfoOk := true
    createOutputPipeOk := true
    setOutputInfoOk := true
    createErrorPipeOk := true
    setErrorInfoOk := true
    createIntermediatePipeOk := true
    createJobObjectOk := true
    launchEncoderOk := true
    launchDecoderOk := true }

/-- The environment in which everything succeeds except the decoder
process launch (`CreateProcessA` for the decoder fails, e.g. because the
decoder executable is missing). -/
def decoderFailEnv : StartEnv :=
  { allOkStartEnv with launchDecoderOk := false }

/-- C1: when pipe creation and the encoder launch succeed but the decoder
launch fails, `Start` returns failure with the encoder terminated, its
handles closed, the six caller-facing pipe handles closed and no worker
threads started — but the intermediate pipe handles and the job object,
both acquired earlier in `LaunchProcesses`, are left open: this failure
path never closes them, contradicting the claim that every acquired
resource is released. -/
theorem Start_decoder_failure_leaks_handles :
    (Start initialState Config.default decoderFailEnv).1 = false ∧
    (Start initialState Config.default decoderFailEnv).2.isRunning = false ∧
    (Start initialState Config.default decoderFailEnv).2.encoderProcAlive = false ∧
    (Start initialState Config.default decoderFailEnv).2.encoderProcHandle = false ∧
    (Start initialState Config.default decoderFailEnv).2.decoderProcHandle = false ∧
    (Start initialState Config.default decoderFailEnv).2.hInputRead = false ∧
    (Start initialState Config.default decoderFailEnv).2.hInputWrite = false ∧
    (Start initialState Config.default decoderFailEnv).2.hOutputRead = false ∧
    (Start initialState Config.default decoderFailEnv).2.hOutputWrite = false ∧
    (Start initialState Config.default decoderFailEnv).2.hErrorRead = false ∧
    (Start initialState Config.default decoderFailEnv).2.hErrorWrite = false ∧
    (Start initialState Config.default decoderFailEnv).2.inputThread = false ∧
    (Start initialState Config.default decoderFailEnv).2.outputThread = false ∧
    (Start initialState Config.default decoderFailEnv).2.errorThread = false ∧
    (Start initialState Config.default decoderFailEnv).2.intermediatePipeRead = true ∧
    (Start initialState Config.default decoderFailEnv).2.intermediatePipeWrite = true ∧
    (Start initialState Config.default decoderFailEnv).2.jobObject = true := by
  decide

/-- Outcomes of the two bounded `WaitForSingleObject(…, 2000)` calls in
`Stop`: whether each child process exits within the 2000 ms grace
window. -/
structure StopEnv where
  encoderExitsInTime : Bool
  decoderExitsInTime : Bool
deriving DecidableEq, Repr

/-- The observable steps taken by `FFmpegPipeManager::Stop`, in the order
the code performs them. -/
inductive StopEvent
  | clearRunningFlag
  | closeInputWriteHandle
  | waitForProcess (encoder : Bool) (timeoutMs : ℕ)
  | closeJobObject
  | terminateProc (encoder : Bool)
  | joinInputThread
  | joinOutputThread
  | joinErrorThread
  | releaseProcessHandles (encoder : Bool)
  | closeIntermediateHandle (readEnd : Bool)
  | closePipeHandles
  | clearQueues
deriving DecidableEq, Repr

/-- Model of `FFmpegPipeManager::Stop`, as a state transition paired with the list
of steps performed. A non-running manager returns immediately with no
steps. Otherwise, following the source order: clear the running flag;
close the input-pipe write handle (EOF to the encoder); wait up to 2000 ms
for each process that has a handle; if either is still alive, close the
job object and force-terminate the survivors; join the three worker
threads; close process handles, the job object (if not already closed
during forced termination), the intermediate pipe handles and the
remaining pipes; finally clear the output and input queues. -/
def StopWithEvents (s : ManagerState) (env : StopEnv) :
    ManagerState × List StopEvent :=
  if s.isRunning = false then (s, [])
  else
    let encoderAlive :=
      s.encoderProcHandle && (s.encoderProcAlive && !env.encoderExitsInTime)
    let decoderAlive :=
      s.decoderProcHandle && (s.decoderProcAlive && !env.decoderExitsInTime)
    let events :=
      [StopEvent.clearRunningFlag]
      ++ (if s.hInputWrite then [StopEvent.closeInputWriteHandle] else [])
      ++ (if s.encoderProcHandle then [StopEvent.waitForProcess true 2000] else [])
      ++ (if s.decoderProcHandle then [StopEvent.waitForProcess false 2000] else [])
      ++ (if encoderAlive || decoderAlive then
            (if s.jobObject then [StopEvent.closeJobObject] else [])
            ++ (if encoderAlive then [StopEvent.terminateProc true] else [])
            ++ (if decoderAlive then [StopEvent.terminateProc false] else [])
          else [])
      ++ (if s.inputThread then [StopEvent.joinInputThread] else [])
      ++ (if s.outputThread then [StopEvent.joinOutputThread] else [])
      ++ (if s.errorThread then [StopEvent.joinErrorThread] else [])
      ++ (if s.encoderProcHandle then [StopEvent.releaseProcessHandles true] else [])
      ++ (if s.decoderProcHandle then [StopEvent.releaseProcessHandles false] else [])
      ++ (if s.jobObject && !(encoderAlive || decoderAlive) then
            [StopEvent.closeJobObject] else [])
      ++ (if s.intermediatePipeRead then [StopEvent.closeIntermediateHandle true] else [])
      ++ (if s.intermediatePipeWrite then [StopEvent.closeIntermediateHandle false] else [])
      ++ [StopEvent.closePipeHandles]
      ++ [StopEvent.clearQueues]
    ({ s with
        isRunning := false
        hInputRead := false
        hInputWrite := false
        hOutputRead := false
        hOutputWrite := false
        hErrorRead := false
        hErrorWrite := false
        intermediatePipeRead := false
        intermediatePipeWrite := false
        jobObject := false
        encoderProcHandle := false
        decoderProcHandle := false
        encoderProcAlive := if s.encoderProcHandle then false else s.encoderProcAlive
        decoderProcAlive := if s.decoderProcHandle then false else s.decoderProcAlive
        inputThread := false
        outputThread := false
        errorThread := false
        inputFloatBuffer := []
        outputFloatBuffer := []
        outputRawBuffer := [] },
      events)

/-- The state transition of `FFmpegPipeManager::Stop`. -/
def Stop (s : ManagerState) (env : StopEnv) : ManagerState :=
  (StopWithEvents s env).1

/-- The step trace of `FFmpegPipeManager::Stop`. -/
def stopEvents (s : ManagerState) (env : StopEnv) : List StopEvent :=
  (StopWithEvents s env).2

theorem Stop_not_running (s : ManagerState) (env : StopEnv)
    (h : s.isRunning = false) : Stop s env = s := by
  simp [Stop, StopWithEvents, h]

theorem Stop_isRunning_false (s : ManagerState) (env : StopEnv) :
    (Stop s env).isRunning = false := by
  unfold Stop StopWithEvents
  by_cases h : s.isRunning = false
  · simp [h]
  · simp [h]

/-- C2: `Stop` is idempotent and always safe: on a manager that is not
running (never started, or already stopped) it returns immediately and
changes no state, and a second `Stop` after any `Stop` is the identity,
so Stop-then-Stop equals a single Stop. -/
theorem Stop_idempotent_and_safe (s : ManagerState) (e1 e2 : StopEnv) :
    Stop (Stop s e1) e2 = Stop s e1 ∧
    (s.isRunning = false → Stop s e1 = s) ∧
    Stop initialState e1 = initialState := by
  refine ⟨Stop_not_running _ _ (Stop_isRunning_false s e1),
    fun h => Stop_not_running s e1 h,
    Stop_not_running initialState e1 rfl⟩

/-- Witness for C2 at a concrete stopped state and concrete wait
outcomes. -/
theorem Stop_idempotent_and_safe_witness :
    Stop (Stop initialState ⟨true, true⟩) ⟨false, false⟩ =
      Stop initialState ⟨true, true⟩ ∧
    (initialState.isRunning = false →
      Stop initialState ⟨true, true⟩ = initialState) ∧
    Stop initialState ⟨true, true⟩ = initialState :=
  Stop_idempotent_and_safe initialState ⟨true, true⟩ ⟨false, false⟩

/-- The shutdown phase a `Stop` step belongs to, following the order the
claim describes: clear the running flag (0), signal EOF (1), bounded
waits (2), forced termination (3), thread joins (4), pipe-handle release
(5), queue clearing (6). Steps not named by the claim (job-object closing,
process-handle release) are unconstrained. -/
def stopPhase : StopEvent → Option ℕ
  | StopEvent.clearRunningFlag => some 0
  | StopEvent.closeInputWriteHandle => some 1
  | StopEvent.waitForProcess _ _ => some 2
  | StopEvent.terminateProc _ => some 3
  | StopEvent.joinInputThread => some 4
  | StopEvent.joinOutputThread => some 4
  | StopEvent.joinErrorThread => some 4
  | StopEvent.closeIntermediateHandle _ => some 5
  | StopEvent.closePipeHandles => some 5
  | StopEvent.clearQueues => some 6
  | StopEvent.closeJobObject => none
  | StopEvent.releaseProcessHandles _ => none

/-- Phase comparison: whenever both events carry a phase, the first phase
is at most the second. -/
def phaseLEb (a b : StopEvent) : Bool :=
  match stopPhase a, stopPhase b with
  | some pa, some pb => pa ≤ pb
  | _, _ => true

/-- Concatenation of optional singleton blocks. -/
def eventBlocks : List (Bool × StopEvent) → List StopEvent
  | [] => []
  | (b, e) :: rest => (if b then [e] else []) ++ eventBlocks rest

theorem mem_eventBlocks {x : StopEvent} :
    ∀ {ps : List (Bool × StopEvent)}, x ∈ eventBlocks ps →
      x ∈ ps.map Prod.snd := by
  intro ps
  induction ps with
  | nil => simp [eventBlocks]
  | cons p rest ih =>
    obtain ⟨b, e⟩ := p
    intro hx
    simp only [eventBlocks, List.mem_append] at hx
    rcases hx with hx | hx
    · cases b with
      | false => simp at hx
      | true =>
        simp at hx
        simp [hx]
    · simp [ih hx]

theorem pairwise_eventBlocks {R : StopEvent → StopEvent → Prop}
    (ps : List (Bool × StopEvent)) (h : (ps.map Prod.snd).Pairwise R) :
    (eventBlocks ps).Pairwise R := by
  induction ps with
  | nil => simp [eventBlocks]
  | cons p rest ih =>
    obtain ⟨b, e⟩ := p
    simp only [List.map_cons, List.pairwise_cons] at h
    obtain ⟨hhead, htail⟩ := h
    simp only [eventBlocks]
    rw [List.pairwise_append]
    refine ⟨?_, ih htail, ?_⟩
    · cases b <;> simp
    · intro a ha y hy
      have hae : a = e := by cases b <;> simp_all
      subst hae
      exact hhead y (mem_eventBlocks hy)

theorem mem_if_singleton {x e : StopEvent} {b : Bool} :
    x ∈ (if b then [e] else []) ↔ (b = true ∧ x = e) := by
  cases b <;> simp

theorem mem_eventBlocks_of_mem {e : StopEvent} :
    ∀ {ps : List (Bool × StopEvent)}, (true, e) ∈ ps → e ∈ eventBlocks ps := by
  intro ps
  induction ps with
  | nil => simp
  | cons p rest ih =>
    obtain ⟨b, e'⟩ := p
    intro hx
    simp only [List.mem_cons, Prod.mk.injEq] at hx
    simp only [eventBlocks, List.mem_append]
    rcases hx with ⟨hb, he⟩ | hx
    · subst he
      left
      simp [← hb]
    · right
      exact ih hx

/-- The trace of a running `Stop`, rewritten as a flat sequence of
optional singleton blocks. -/
theorem stopEvents_eq_blocks (s : ManagerState) (env : StopEnv)
    (h : s.isRunning = true) :
    stopEvents s env =
      eventBlocks
        [(true, StopEvent.clearRunningFlag),
         (s.hInputWrite, StopEvent.closeInputWriteHandle),
         (s.encoderProcHandle, StopEvent.waitForProcess true 2000),
         (s.decoderProcHandle, StopEvent.waitForProcess false 2000),
         ((s.encoderProcHandle && (s.encoderProcAlive && !env.encoderExitsInTime)
            || s.decoderProcHandle && (s.decoderProcAlive && !env.decoderExitsInTime))
            && s.jobObject, StopEvent.closeJobObject),
         (s.encoderProcHandle && (s.encoderProcAlive && !env.encoderExitsInTime),
            StopEvent.terminateProc true),
         (s.decoderProcHandle && (s.decoderProcAlive && !env.decoderExitsInTime),
            StopEvent.terminateProc false),
         (s.inputThread, StopEvent.joinInputThread),
         (s.outputThread, StopEvent.joinOutputThread),
         (s.errorThread, StopEvent.joinErrorThread),
         (s.encoderProcHandle, StopEvent.releaseProcessHandles true),
         (s.decoderProcHandle, StopEvent.releaseProcessHandles false),
         (s.jobObject &&
            !(s.encoderProcHandle && (s.encoderProcAlive && !env.encoderExitsInTime)
              || s.decoderProcHandle && (s.decoderProcAlive && !env.decoderExitsInTime)),
            StopEvent.closeJobObject),
         (s.intermediatePipeRead, StopEvent.closeIntermediateHandle true),
         (s.intermediatePipeWrite, StopEvent.closeIntermediateHandle false),
         (true, StopEvent.closePipeHandles),
         (true, StopEvent.clearQueues)] := by
  unfold stopEvents StopWithEvents
  simp only [h, Bool.true_eq_false, if_false, if_true]
  cases hE : s.encoderProcHandle && (s.encoderProcAlive && !env.encoderExitsInTime) <;>
    cases hD : s.decoderProcHandle && (s.decoderProcAlive && !env.decoderExitsInTime) <;>
      cases hJ : s.jobObject <;> simp [eventBlocks]

/-- C3: for every running session, the steps of `Stop` are ordered by
shutdown phase: the running flag is cleared first, the encoder EOF close
precedes every bounded wait, every wait uses the 2000 ms timeout and
precedes any forced termination, terminations precede the three thread
joins, the joins precede the release of the remaining pipe handles, and
the queues are cleared last. -/
theorem Stop_steps_ordered (s : ManagerState) (env : StopEnv)
    (h : s.isRunning = true) :
    (stopEvents s env).Pairwise (fun a b => phaseLEb a b = true) ∧
    (stopEvents s env).head? = some StopEvent.clearRunningFlag ∧
    (∀ b t, StopEvent.waitForProcess b t ∈ stopEvents s env → t = 2000) ∧
    (s.hInputWrite = true →
      StopEvent.closeInputWriteHandle ∈ stopEvents s env) ∧
    (s.encoderProcHandle = true →
      StopEvent.waitForProcess true 2000 ∈ stopEvents s env) ∧
    (s.decoderProcHandle = true →
      StopEvent.waitForProcess false 2000 ∈ stopEvents s env) ∧
    (s.inputThread = true → StopEvent.joinInputThread ∈ stopEvents s env) ∧
    (s.outputThread = true → StopEvent.joinOutputThread ∈ stopEvents s env) ∧
    (s.errorThread = true → StopEvent.joinErrorThread ∈ stopEvents s env) ∧
    StopEvent.closePipeHandles ∈ stopEvents s env ∧
    StopEvent.clearQueues ∈ stopEvents s env := by
  have hp : ([StopEvent.clearRunningFlag, StopEvent.closeInputWriteHandle,
      StopEvent.waitForProcess true 2000, StopEvent.waitForProcess false 2000,
      StopEvent.closeJobObject, StopEvent.terminateProc true,
      StopEvent.terminateProc false, StopEvent.joinInputThread,
      StopEvent.joinOutputThread, StopEvent.joinErrorThread,
      StopEvent.releaseProcessHandles true, StopEvent.releaseProcessHandles false,
      StopEvent.closeJobObject, StopEvent.closeIntermediateHandle true,
      StopEvent.closeIntermediateHandle false, StopEvent.closePipeHandles,
      StopEvent.clearQueues] : List StopEvent).Pairwise
        (fun a b => phaseLEb a b = true) := by decide
  rw [stopEvents_eq_blocks s env h]
  refine ⟨pairwise_eventBlocks _ ?_, ?_, ?_, ?_, ?_, ?_, ?_, ?_, ?_, ?_, ?_⟩
  · simpa using hp
  · simp [eventBlocks]
  · intro b t ht
    have hm := mem_eventBlocks ht
    clear ht
    simp only [List.map_cons, List.map_nil, List.mem_cons, List.not_mem_nil,
      or_false] at hm
    rcases hm with h1 | h1 | h1 | h1 | h1 | h1 | h1 | h1 | h1 | h1 | h1 | h1 |
      h1 | h1 | h1 | h1 | h1 <;>
      first
        | (rw [StopEvent.waitForProcess.injEq] at h1; exact h1.2)
        | exact StopEvent.noConfusion h1
  · intro hw
    exact mem_eventBlocks_of_mem (by rw [hw]; simp)
  · intro hw
    exact mem_eventBlocks_of_mem (by rw [hw]; simp)
  · intro hw
    exact mem_eventBlocks_of_mem (by rw [hw]; simp)
  · intro hw
    exact mem_eventBlocks_of_mem (by rw [hw]; simp)
  · intro hw
    exact mem_eventBlocks_of_mem (by rw [hw]; simp)
  · intro hw
    exact mem_eventBlocks_of_mem (by rw [hw]; simp)
  · exact mem_eventBlocks_of_mem (by simp)
  · exact mem_eventBlocks_of_mem (by simp)

/-- A state reached by a fully successful `Start` from the constructor
state, used as a concrete running session. -/
def runningExample : ManagerState :=
  (Start initialState Config.default allOkStartEnv).2

/-- Witness for C3 at the concrete running session `runningExample` with
both processes exceeding the grace window. -/
theorem Stop_steps_ordered_witness :
    (stopEvents runningExample ⟨false, false⟩).Pairwise
      (fun a b => phaseLEb a b = true) ∧
    (stopEvents runningExample ⟨false, false⟩).head? =
      some StopEvent.clearRunningFlag ∧
    (∀ b t, StopEvent.waitForProcess b t ∈
      stopEvents runningExample ⟨false, false⟩ → t = 2000) ∧
    (runningExample.hInputWrite = true →
      StopEvent.closeInputWriteHandle ∈ stopEvents runningExample ⟨false, false⟩) ∧
    (runningExample.encoderProcHandle = true →
      StopEvent.waitForProcess true 2000 ∈ stopEvents runningExample ⟨false, false⟩) ∧
    (runningExample.decoderProcHandle = true →
      StopEvent.waitForProcess false 2000 ∈ stopEvents runningExample ⟨false, false⟩) ∧
    (runningExample.inputThread = true →
      StopEvent.joinInputThread ∈ stopEvents runningExample ⟨false, false⟩) ∧
    (runningExample.outputThread = true →
      StopEvent.joinOutputThread ∈ stopEvents runningExample ⟨false, false⟩) ∧
    (runningExample.errorThread = true →
      StopEvent.joinErrorThread ∈ stopEvents runningExample ⟨false, false⟩) ∧
    StopEvent.closePipeHandles ∈ stopEvents runningExample ⟨false, false⟩ ∧
    StopEvent.clearQueues ∈ stopEvents runningExample ⟨false, false⟩ :=
  Stop_steps_ordered runningExample ⟨false, false⟩ (by decide)

/-- Model of `FFmpegPipeManager::WriteSamples`: fails with the state untouched when
not running; otherwise appends `numSamples * channels` float samples from
the caller's buffer to the end of the input queue and succeeds. No pipe
I/O is performed (the worker thread does that later). -/
def WriteSamples (s : ManagerState) (data : List ℚ) (numSamples : ℕ) :
    Bool × ManagerState :=
  if s.isRunning = false then (false, s)
  else
    let totalSamples := numSamples * s.config.channels
    (true, { s with inputFloatBuffer := s.inputFloatBuffer ++ data.take totalSamples })

/-- Model of `FFmpegPipeManager::ReadSamples`: returns zero with the state untouched
when not running; otherwise pops `min (numSamples * channels, queue length)`
samples off the front of the output queue into the caller's buffer and
returns that count divided by the channel count. The timeout parameter is
accepted and ignored, exactly as in the source. Result: (frames returned,
samples delivered to the caller, new state). -/
def ReadSamples (s : ManagerState) (numSamples : ℕ) (_timeoutMs : ℕ) :
    ℕ × List ℚ × ManagerState :=
  if s.isRunning = false then (0, [], s)
  else
    let totalSamples := numSamples * s.config.channels
    let samplesRead := min totalSamples s.outputFloatBuffer.length
    (samplesRead / s.config.channels,
     s.outputFloatBuffer.take samplesRead,
     { s with outputFloatBuffer := s.outputFloatBuffer.drop samplesRead })

/-- C4: when the session is running, `WriteSamples` (EnqueueInput) appends
exactly `numSamples * channels` samples, in order, to the end of the input
queue and returns success, touching no other part of the state; it returns
failure exactly when the session is not running, and then the state — in
particular the input queue — is unchanged. -/
theorem WriteSamples_appends_or_rejects (s : ManagerState) (data : List ℚ)
    (numSamples : ℕ) (hlen : numSamples * s.config.channels ≤ data.length) :
    (s.isRunning = true →
      (WriteSamples s data numSamples).1 = true ∧
      (WriteSamples s data numSamples).2 =
        { s with inputFloatBuffer :=
            s.inputFloatBuffer ++ data.take (numSamples * s.config.channels) } ∧
      (data.take (numSamples * s.config.channels)).length =
        numSamples * s.config.channels) ∧
    (s.isRunning = false →
      (WriteSamples s data numSamples).1 = false ∧
      (WriteSamples s data numSamples).2 = s) := by
  constructor
  · intro hr
    refine ⟨?_, ?_, ?_⟩
    · simp [WriteSamples, hr]
    · simp [WriteSamples, hr]
    · simpa using hlen
  · intro hr
    constructor <;> simp [WriteSamples, hr]

/-- Witness for C4: enqueueing 2 frames of a 4-sample stereo buffer on the
running example appends all 4 samples; on the constructor state the call
fails and changes nothing. -/
theorem WriteSamples_appends_or_rejects_witness :
    (runningExample.isRunning = true →
      (WriteSamples runningExample [1/2, -1/2, 1/4, -1/4] 2).1 = true ∧
      (WriteSamples runningExample [1/2, -1/2, 1/4, -1/4] 2).2 =
        { runningExample with inputFloatBuffer :=
            runningExample.inputFloatBuffer ++
              (([1/2, -1/2, 1/4, -1/4] : List ℚ).take
                (2 * runningExample.config.channels)) } ∧
      (([1/2, -1/2, 1/4, -1/4] : List ℚ).take
          (2 * runningExample.config.channels)).length =
        2 * runningExample.config.channels) ∧
    (runningExample.isRunning = false →
      (WriteSamples runningExample [1/2, -1/2, 1/4, -1/4] 2).1 = false ∧
      (WriteSamples runningExample [1/2, -1/2, 1/4, -1/4] 2).2 = runningExample) :=
  WriteSamples_appends_or_rejects runningExample [1/2, -1/2, 1/4, -1/4] 2
    (by decide)

/-- A running session whose output queue holds two complete stereo
frames. -/
def runningWithOutput : ManagerState :=
  { runningExample with outputFloatBuffer := [1/4, 1/2, 3/4, 1] }

/-- C5: for `ReadSamples` (DrainOutput) with timeout 0 on a running session
whose output queue holds whole frames: the returned frame count is the
minimum of the requested frames and the complete frames available, exactly
that many frames are removed from the front of the queue in FIFO order and
delivered, and a non-running session returns 0 with the queue unchanged. -/
theorem ReadSamples_drains_min_frames (s : ManagerState) (maxSamples : ℕ)
    (hch : 0 < s.config.channels)
    (hdvd : s.config.channels ∣ s.outputFloatBuffer.length) :
    (s.isRunning = true →
      (ReadSamples s maxSamples 0).1 =
        min maxSamples (s.outputFloatBuffer.length / s.config.channels) ∧
      (ReadSamples s maxSamples 0).2.1 =
        s.outputFloatBuffer.take
          ((ReadSamples s maxSamples 0).1 * s.config.channels) ∧
      (ReadSamples s maxSamples 0).2.2 =
        { s with outputFloatBuffer :=
            (s.outputFloatBuffer.drop
              ((ReadSamples s maxSamples 0).1 * s.config.channels)) }) ∧
    (s.isRunning = false → ReadSamples s maxSamples 0 = (0, [], s)) := by
  obtain ⟨k, hk⟩ := hdvd
  have hmin : min (maxSamples * s.config.channels) s.outputFloatBuffer.length =
      min maxSamples (s.outputFloatBuffer.length / s.config.channels) *
        s.config.channels := by
    rw [hk, Nat.mul_div_cancel_left k hch, Nat.mul_comm s.config.channels k,
      min_mul_mul_right maxSamples k s.config.channels]
  constructor
  · intro hr
    have hdiv : min maxSamples (s.outputFloatBuffer.length / s.config.channels) *
        s.config.channels / s.config.channels =
        min maxSamples (s.outputFloatBuffer.length / s.config.channels) :=
      Nat.mul_div_cancel _ hch
    refine ⟨?_, ?_, ?_⟩
    · simp only [ReadSamples, hr, Bool.true_eq_false, if_false]
      rw [hmin, hdiv]
    · simp only [ReadSamples, hr, Bool.true_eq_false, if_false]
      rw [hmin, hdiv]
    · simp only [ReadSamples, hr, Bool.true_eq_false, if_false]
      rw [hmin, hdiv]
  · intro hr
    simp [ReadSamples, hr]

/-- Witness for C5: requesting 1 frame from a running stereo session with
2 complete frames queued returns 1 frame, removing the first 2 samples. -/
theorem ReadSamples_drains_min_frames_witness :
    (runningWithOutput.isRunning = true →
      (ReadSamples runningWithOutput 1 0).1 =
        min 1 (runningWithOutput.outputFloatBuffer.length /
          runningWithOutput.config.channels) ∧
      (ReadSamples runningWithOutput 1 0).2.1 =
        runningWithOutput.outputFloatBuffer.take
          ((ReadSamples runningWithOutput 1 0).1 *
            runningWithOutput.config.channels) ∧
      (ReadSamples runningWithOutput 1 0).2.2 =
        { runningWithOutput with outputFloatBuffer :=
            (runningWithOutput.outputFloatBuffer.drop
              ((ReadSamples runningWithOutput 1 0).1 *
                runningWithOutput.config.channels)) }) ∧
    (runningWithOutput.isRunning = false →
      ReadSamples runningWithOutput 1 0 = (0, [], runningWithOutput)) :=
  ReadSamples_drains_min_frames runningWithOutput 1 (by decide) (by decide)

/-!
### Output drainer (`OutputReadThread`), one loop iteration
-/

/-- Reassembling S16LE samples from consecutive byte pairs (little-endian,
two's complement), as done by the `reinterpret_cast<const int16_t*>` over
the raw output buffer. A trailing odd byte yields no sample. -/
def bytesToS16 : List ℕ → List ℤ
  | [] => []
  | [_] => []
  | lo :: hi :: rest =>
      (if lo + 256 * hi < 32768 then ((lo + 256 * hi : ℕ) : ℤ)
       else ((lo + 256 * hi : ℕ) : ℤ) - 65536) :: bytesToS16 rest

theorem bytesToS16_length : ∀ bs : List ℕ, (bytesToS16 bs).length = bs.length / 2
  | [] => rfl
  | [_] => by simp [bytesToS16]
  | _ :: _ :: rest => by
    simp only [bytesToS16, List.length_cons]
    rw [bytesToS16_length rest]
    omega

/-- The body of one iteration of `FFmpegPipeManager::OutputReadThread`
after a successful pipe read: append the bytes read to the raw output
buffer, compute the number of complete sample frames
(frame = 2 bytes × channels), and if at least one is present convert
exactly those bytes to float, push them onto the output queue and erase
them from the raw buffer. Returns (new raw buffer, new output queue). -/
def OutputReadIteration (channels : ℕ) (raw : List ℕ) (queue : List ℚ)
    (incoming : List ℕ) : List ℕ × List ℚ :=
  let raw2 := raw ++ incoming
  let sampleSize := 2 * channels
  let numCompleteSamples := raw2.length / sampleSize
  if 0 < numCompleteSamples then
    let bytesToProcess := numCompleteSamples * sampleSize
    let floatSamples := S16LEToFloat (bytesToS16 (raw2.take bytesToProcess))
    (raw2.drop bytesToProcess, queue ++ floatSamples)
  else (raw2, queue)

/-- C6: after any iteration of the output drainer, the raw output
accumulator holds strictly fewer bytes than one sample frame
(2 × channels bytes), and the samples pushed to the output queue in that
iteration are appended at the end and always number a multiple of the
channel count, so a partial frame is never exposed. -/
theorem OutputReadIteration_eq (channels : ℕ) (raw : List ℕ) (queue : List ℚ)
    (incoming : List ℕ) :
    OutputReadIteration channels raw queue incoming =
      if 0 < (raw ++ incoming).length / (2 * channels) then
        ((raw ++ incoming).drop
          ((raw ++ incoming).length / (2 * channels) * (2 * channels)),
         queue ++ S16LEToFloat (bytesToS16 ((raw ++ incoming).take
           ((raw ++ incoming).length / (2 * channels) * (2 * channels)))))
      else (raw ++ incoming, queue) := rfl

theorem OutputReadIteration_frame_aligned (channels : ℕ) (raw : List ℕ)
    (queue : List ℚ) (incoming : List ℕ) (hch : 0 < channels) :
    (OutputReadIteration channels raw queue incoming).1.length < 2 * channels ∧
    ∃ pushed : List ℚ,
      (OutputReadIteration channels raw queue incoming).2 = queue ++ pushed ∧
      pushed.length % channels = 0 := by
  rw [OutputReadIteration_eq]
  have hss : 0 < 2 * channels := by omega
  by_cases hn : 0 < (raw ++ incoming).length / (2 * channels)
  · rw [if_pos hn]
    have hle : (raw ++ incoming).length / (2 * channels) * (2 * channels) ≤
        (raw ++ incoming).length := Nat.div_mul_le_self _ _
    constructor
    · have hlt : (raw ++ incoming).length <
          ((raw ++ incoming).length / (2 * channels) + 1) * (2 * channels) :=
        (Nat.div_lt_iff_lt_mul hss).mp (Nat.lt_succ_self _)
      rw [Nat.add_mul, Nat.one_mul] at hlt
      simp only [List.length_drop]
      rw [tsub_lt_iff_left hle]
      exact hlt
    · refine ⟨S16LEToFloat (bytesToS16 ((raw ++ incoming).take
        ((raw ++ incoming).length / (2 * channels) * (2 * channels)))), rfl, ?_⟩
      rw [S16LEToFloat_length, bytesToS16_length, List.length_take,
        min_eq_left hle]
      rw [show (raw ++ incoming).length / (2 * channels) * (2 * channels) =
        (raw ++ incoming).length / (2 * channels) * channels * 2 by ring]
      rw [Nat.mul_div_cancel _ (by norm_num : 0 < 2)]
      exact Nat.mul_mod_left _ _
  · rw [if_neg hn]
    refine ⟨?_, [], by simp, by simp⟩
    have h0 : (raw ++ incoming).length / (2 * channels) = 0 :=
      Nat.eq_zero_of_not_pos hn
    exact (Nat.div_eq_zero_iff hss).mp h0

/-- Witness for C6: with 2 channels, a stale odd byte in the accumulator
and three incoming bytes, one complete frame (two samples) is pushed and
the accumulator is left empty. -/
theorem OutputReadIteration_frame_aligned_witness :
    (0 : ℕ) < 2 ∧
    ((OutputReadIteration 2 [7] [] [0, 1, 2]).1.length < 2 * 2 ∧
     ∃ pushed : List ℚ,
       (OutputReadIteration 2 [7] [] [0, 1, 2]).2 = [] ++ pushed ∧
       pushed.length % 2 = 0) :=
  ⟨by norm_num, OutputReadIteration_frame_aligned 2 [7] [] [0, 1, 2] (by norm_num)⟩

end FFmpegPipeManager
